import Mathlib

/-!
Verification of the MILP production-scheduling model builder of this
repository (source files src/production_optimizer.py and
src/constraint_manager.py).

The Python code builds a PuLP model from catalog data.  We embed the build
shallowly: an `Inst` carries the catalog data the build reads
(products, lines, ordered time slots, throughput rates, track counts,
items per box, setup/cleanup times, order quantities, rule-derived
changeover times, and the target utilization rate), a `Sol` carries one
real-valued assignment to every decision-variable family the build
creates, and `Feasible I s` is the conjunction of all constraints the
`ConstraintManager.add_all_constraints` pass emits, translated
family by family from the source, together with the variable bounds PuLP
itself enforces (binaries in {0,1}, lower bounds 0).  Solved values are
modelled as rationals.  The model is built with an empty line-specific
constraint configuration (the default `LineConstraintConfig()`), which
adds no constraints; the unused auxiliary variable families
`continuity` and `sequence_changeover`, which appear in no constraint,
are omitted from `Sol`.
-/

/-- Catalog data consumed by the model build (the CatalogProvider contract):
product codes, line ids, the ordered time-slot names, and the lookup
functions `_get_max_working_hours`, `_get_capacity_rate`,
`_get_track_count`, `_get_package_count`, `_get_setup_time`,
`_get_cleanup_time`, the order data, the rule-derived
`_get_changeover_time`, and `target_utilization_rate`. -/
structure Inst where
  products : List ℕ
  lines : List ℕ
  slots : List ℕ
  maxHours : ℕ → ℚ
  rate : ℕ → ℕ → ℚ
  tracks : ℕ → ℚ
  itemsPerBox : ℕ → ℚ
  setup : ℕ → ℚ
  cleanup : ℕ → ℚ
  orderQty : ℕ → ℚ
  chgTime : ℕ → ℕ → ℕ → ℚ
  targetRate : ℚ

/-- One assignment of solved values to every decision-variable family
created by `_create_variables`, plus the slack variables created inside
the constraint-adding pass (`production_underutil_slack`,
`dynamic_util_slack`, `time_slack`). -/
structure Sol where
  production : ℕ → ℕ → ℕ → ℚ
  production_time : ℕ → ℕ → ℕ → ℚ
  changeover : ℕ → ℕ → ℕ → ℕ → ℚ
  changeover_time : ℕ → ℕ → ℚ
  cleaning_time : ℕ → ℕ → ℚ
  changeover_count : ℕ → ℕ → ℚ
  sequence : ℕ → ℕ → ℕ → ℕ → ℚ
  block_start : ℕ → ℕ → ℕ → ℚ
  underutilSlack : ℕ → ℕ → ℚ
  dynamicSlack : ℕ → ℕ → ℚ
  timeSlack : ℕ → ℕ → ℕ → ℚ

/-- `x` is a 0/1 value (a solved binary variable). -/
def binaryQ (x : ℚ) : Prop := x = 0 ∨ x = 1

instance (x : ℚ) : Decidable (binaryQ x) := by unfold binaryQ; infer_instance

/-- Valid (product, line) combinations from `_create_variables`: the pairs
with positive CT rate; if no pair qualifies, the code falls back to the
full cross product. -/
def validCombos (I : Inst) : List (ℕ × ℕ) :=
  let v := I.products.flatMap fun p =>
    (I.lines.filter fun l => decide (0 < I.rate p l)).map fun l => (p, l)
  if v.isEmpty then I.products.flatMap fun p => I.lines.map fun l => (p, l) else v

/-- The slot name at index `k` (the Python `self.time_slots[k]`). -/
def slotAt (I : Inst) (k : ℕ) : ℕ := I.slots.getD k 0

/-- `_calculate_required_time_slots`: boxes-per-hour from rate, tracks and
items-per-box (0 items-per-box replaced by 1), required hours for the
target quantity, divided by the first slot's max working hours, ceiled,
and at least 1.  (Rational division by zero is 0 here where Python would
raise ZeroDivisionError; the build only calls this for valid
combinations, whose rate is positive.) -/
def requiredSlots (I : Inst) (p l : ℕ) : ℕ :=
  (max 1 ⌈I.orderQty p /
      (I.rate p l * I.tracks l * 60 /
        (if I.itemsPerBox p = 0 then 1 else I.itemsPerBox p)) /
      I.maxHours I.slots.headI⌉).toNat

/-- Number of feasible block start offsets,
`len(time_slots) - required_slots + 1` (empty when negative). -/
def numStarts (I : Inst) (p l : ℕ) : ℕ :=
  I.slots.length + 1 - requiredSlots I p l

/-- Ordered pairs of distinct products both valid on line `l`, in the
iteration order of the code's double loop over
`valid_product_line_combinations`. -/
def linePairs (I : Inst) (l : ℕ) : List (ℕ × ℕ) :=
  (validCombos I).flatMap fun pl1 =>
    (validCombos I).filterMap fun pl2 =>
      if pl1.2 = l ∧ pl2.2 = l ∧ pl1.1 ≠ pl2.1 then some (pl1.1, pl2.1) else none

/-- Total produced boxes of product `p`
(`_add_production_constraints`): over its valid lines and all slots,
`production_time · rate · tracks · 60 / items_per_box`, the contribution
being the constant 0 when items-per-box is not positive. -/
def totalBoxes (I : Inst) (σ : Sol) (p : ℕ) : ℚ :=
  ((I.lines.filter fun l => decide ((p, l) ∈ validCombos I)).map fun l =>
    (I.slots.map fun t =>
      if 0 < I.itemsPerBox p then
        σ.production_time p l t * I.rate p l * I.tracks l * 60 / I.itemsPerBox p
      else 0).sum).sum

/-- Sum of production times of line `l` at slot `t` as formed in
`add_time_unit_normalization_constraints` (loop over
`valid_product_line_combinations` filtered to the line). -/
def prodTimeSumLine (I : Inst) (σ : Sol) (l t : ℕ) : ℚ :=
  ((validCombos I).filterMap fun pl =>
    if pl.2 = l then some (σ.production_time pl.1 pl.2 t) else none).sum

/-- Sum of production times of line `l` at slot `t` as formed in
`_add_time_constraints` (loop over products filtered by validity). -/
def softProdTimeSum (I : Inst) (σ : Sol) (l t : ℕ) : ℚ :=
  ((I.products.filter fun p => decide ((p, l) ∈ validCombos I)).map fun p =>
    σ.production_time p l t).sum

/-- Sum of the pairwise changeover indicators of line `l` at slot `t`
(`_add_changeover_count_constraints`). -/
def pairChangeoverSum (I : Inst) (σ : Sol) (l t : ℕ) : ℚ :=
  ((linePairs I l).map fun pq => σ.changeover pq.1 pq.2 l t).sum

/-- Sum of indicator times rule-derived changeover time
(`_add_improved_constraints`, the changeover-time calculation). -/
def chgPairTimeSum (I : Inst) (σ : Sol) (l t : ℕ) : ℚ :=
  ((linePairs I l).map fun pq =>
    σ.changeover pq.1 pq.2 l t * I.chgTime pq.1 pq.2 l).sum

/-- Bounds PuLP enforces on the created variables: `production`,
`sequence`, `changeover`, `changeover_count` and `block_start` binary;
`production_time`, `changeover_time`, `cleaning_time` and all slack
variables bounded below by 0. -/
def varBoundsOK (I : Inst) (σ : Sol) : Prop :=
  (∀ pl ∈ validCombos I, ∀ t ∈ I.slots,
    binaryQ (σ.production pl.1 pl.2 t) ∧ 0 ≤ σ.production_time pl.1 pl.2 t ∧
    (∀ pos ∈ ([1, 2, 3] : List ℕ), binaryQ (σ.sequence pl.1 pl.2 t pos)) ∧
    0 ≤ σ.timeSlack pl.1 pl.2 t) ∧
  (∀ l ∈ I.lines, ∀ t ∈ I.slots,
    0 ≤ σ.changeover_time l t ∧ 0 ≤ σ.cleaning_time l t ∧
    binaryQ (σ.changeover_count l t) ∧ 0 ≤ σ.underutilSlack l t ∧
    0 ≤ σ.dynamicSlack l t) ∧
  (∀ l ∈ I.lines, ∀ t ∈ I.slots, ∀ pq ∈ linePairs I l,
    binaryQ (σ.changeover pq.1 pq.2 l t)) ∧
  (∀ pl ∈ validCombos I, ∀ s ∈ List.range (numStarts I pl.1 pl.2),
    binaryQ (σ.block_start pl.1 pl.2 s))

/-- `_add_production_constraints`: for every product that has a valid
line, total boxes ≥ target·1 and ≤ target·1; products without a valid
line are skipped. -/
def prodQtyOK (I : Inst) (σ : Sol) : Prop :=
  ∀ p ∈ I.products, (∃ l ∈ I.lines, (p, l) ∈ validCombos I) →
    I.orderQty p * 1 ≤ totalBoxes I σ p ∧ totalBoxes I σ p ≤ I.orderQty p * 1

/-- `_add_changeover_count_constraints`: `changeover_count[l,t]` is at
least and at most the sum of the pairwise indicators. -/
def changeoverCountOK (I : Inst) (σ : Sol) : Prop :=
  ∀ l ∈ I.lines, ∀ t ∈ I.slots,
    pairChangeoverSum I σ l t ≤ σ.changeover_count l t ∧
    σ.changeover_count l t ≤ pairChangeoverSum I σ l t

/-- `_add_setup_and_cleaning_constraints`: cleaning time pinned to setup
time at the first slot, cleanup time at the last slot, zero at interior
slots. -/
def setupCleaningOK (I : Inst) (σ : Sol) : Prop :=
  I.slots ≠ [] →
    ∀ l ∈ I.lines,
      σ.cleaning_time l I.slots.headI = I.setup l ∧
      σ.cleaning_time l (I.slots.getLastD 0) = I.cleanup l ∧
      (∀ k ∈ List.range (I.slots.length - 1), 0 < k →
        σ.cleaning_time l (slotAt I k) = 0)

/-- The three-inequality linearization of a logical AND of two binaries:
`z ≤ a`, `z ≤ b`, `z ≥ a + b - 1`. -/
def andEnc (z a b : ℚ) : Prop := z ≤ a ∧ z ≤ b ∧ a + b - 1 ≤ z

instance (z a b : ℚ) : Decidable (andEnc z a b) := by unfold andEnc; infer_instance

/-- `_add_improved_constraints`, translated clause by clause: intra-slot
changeover AND-encodings over adjacent positions (pos, pos+1) for
pos in range(1, MAX_POSITIONS); inter-slot AND-encodings over the
previous slot's last position (MAX_POSITIONS = 3) and the current slot's
position 1; the `sequence ≤ production` link for every position in
range(1, MAX_POSITIONS + 1); and `changeover_time` pinned to the sum of
indicator·rule-time, or to 0 when the pair list of the line is empty. -/
def improvedOK (I : Inst) (σ : Sol) : Prop :=
  ∀ l ∈ I.lines, ∀ k ∈ List.range I.slots.length,
    (∀ pos ∈ ([1, 2] : List ℕ), ∀ pq ∈ linePairs I l,
      andEnc (σ.changeover pq.1 pq.2 l (slotAt I k))
        (σ.sequence pq.1 l (slotAt I k) pos)
        (σ.sequence pq.2 l (slotAt I k) (pos + 1))) ∧
    (0 < k → ∀ pq ∈ linePairs I l,
      andEnc (σ.changeover pq.1 pq.2 l (slotAt I k))
        (σ.sequence pq.1 l (slotAt I (k - 1)) 3)
        (σ.sequence pq.2 l (slotAt I k) 1)) ∧
    (∀ pl ∈ validCombos I, pl.2 = l → ∀ pos ∈ ([1, 2, 3] : List ℕ),
      σ.sequence pl.1 l (slotAt I k) pos ≤ σ.production pl.1 l (slotAt I k)) ∧
    ((linePairs I l = [] → σ.changeover_time l (slotAt I k) = 0) ∧
     (linePairs I l ≠ [] →
       σ.changeover_time l (slotAt I k) = chgPairTimeSum I σ l (slotAt I k)))

/-- `_add_soft_utilization_constraint`: production-time sum plus a
non-negative slack covers the max hours minus the fixed
(changeover + cleaning) time. -/
def softUtilOK (I : Inst) (σ : Sol) : Prop :=
  ∀ l ∈ I.lines, ∀ t ∈ I.slots,
    I.maxHours t - (σ.changeover_time l t + σ.cleaning_time l t) ≤
      softProdTimeSum I σ l t + σ.underutilSlack l t

/-- `add_dynamic_utilization_constraint`: added only when
`max_hours - (2.5 + 0.6) > 0`; total time plus slack covers
`max_hours · target_rate`. -/
def dynUtilOK (I : Inst) (σ : Sol) : Prop :=
  ∀ l ∈ I.lines, ∀ t ∈ I.slots,
    0 < I.maxHours t - 31 / 10 →
      I.maxHours t * I.targetRate ≤
        softProdTimeSum I σ l t + σ.changeover_time l t + σ.cleaning_time l t +
          σ.dynamicSlack l t

/-- `_add_block_continuity`: for every valid combination, every feasible
start offset forces production on the covered slots, and when at least
one start offset exists, exactly one `block_start` is selected. -/
def blockOK (I : Inst) (σ : Sol) : Prop :=
  ∀ pl ∈ validCombos I,
    (∀ s ∈ List.range (numStarts I pl.1 pl.2),
      ∀ k ∈ List.range (s + requiredSlots I pl.1 pl.2), s ≤ k →
        k < I.slots.length →
        σ.block_start pl.1 pl.2 s ≤ σ.production pl.1 pl.2 (slotAt I k)) ∧
    (0 < numStarts I pl.1 pl.2 →
      ((List.range (numStarts I pl.1 pl.2)).map fun s =>
        σ.block_start pl.1 pl.2 s).sum = 1)

/-- `_add_multi_product_in_slot`: the small-volume products of (l, t) —
valid combination, positive target, positive rate and items-per-box, and
required hours strictly below the slot's max hours. -/
def smallProducts (I : Inst) (l t : ℕ) : List ℕ :=
  I.products.filter fun p =>
    decide ((p, l) ∈ validCombos I) && decide (0 < I.orderQty p) &&
    decide (0 < I.rate p l) && decide (0 < I.itemsPerBox p) &&
    decide (I.orderQty p / (I.rate p l * I.tracks l * 60 / I.itemsPerBox p) <
      I.maxHours t)

/-- `_add_multi_product_in_slot`: when small-volume products exist, at
most 3 of them may be active in the slot. -/
def multiProductOK (I : Inst) (σ : Sol) : Prop :=
  ∀ l ∈ I.lines, ∀ t ∈ I.slots,
    smallProducts I l t ≠ [] →
      ((smallProducts I l t).map fun p => σ.production p l t).sum ≤ 3

/-- `_add_total_changeover_limit` with its default `max_changeovers=5`:
the global changeover-count sum is at most 5. -/
def totalChangeoverOK (I : Inst) (σ : Sol) : Prop :=
  (I.lines.flatMap fun l => I.slots.map fun t => σ.changeover_count l t).sum ≤ 5

/-- `add_time_unit_normalization_constraints`, first loop:
`production_time ≥ MIN_PRODUCTION_TIME · production` with
MIN_PRODUCTION_TIME = 1, and the soft
`production_time + slack ≥ max_hours · production`. -/
def timeNormOK (I : Inst) (σ : Sol) : Prop :=
  ∀ pl ∈ validCombos I, ∀ t ∈ I.slots,
    1 * σ.production pl.1 pl.2 t ≤ σ.production_time pl.1 pl.2 t ∧
    I.maxHours t * σ.production pl.1 pl.2 t ≤
      σ.production_time pl.1 pl.2 t + σ.timeSlack pl.1 pl.2 t

/-- `add_time_unit_normalization_constraints`, second loop (the
constraints named `total_time_slot_limit_{line}_{slot}`): line production
time plus changeover time plus the cleaning-time variable at the first
and at the last slot is at most the slot's max hours. -/
def timeLimitOK (I : Inst) (σ : Sol) : Prop :=
  ∀ l ∈ I.lines, ∀ t ∈ I.slots,
    prodTimeSumLine I σ l t + σ.changeover_time l t +
      (if t = I.slots.headI then σ.cleaning_time l t else 0) +
      (if t = I.slots.getLastD 0 then σ.cleaning_time l t else 0) ≤
      I.maxHours t

/-- All constraints emitted by `ConstraintManager.add_all_constraints`
(with the default, empty line-specific configuration), together with the
variable bounds. -/
def Feasible (I : Inst) (σ : Sol) : Prop :=
  varBoundsOK I σ ∧ prodQtyOK I σ ∧ changeoverCountOK I σ ∧
  setupCleaningOK I σ ∧ improvedOK I σ ∧ softUtilOK I σ ∧ dynUtilOK I σ ∧
  blockOK I σ ∧ multiProductOK I σ ∧ totalChangeoverOK I σ ∧
  timeNormOK I σ ∧ timeLimitOK I σ

instance (I : Inst) (σ : Sol) : Decidable (varBoundsOK I σ) := by
  unfold varBoundsOK; infer_instance

instance (I : Inst) (σ : Sol) : Decidable (prodQtyOK I σ) := by
  unfold prodQtyOK; infer_instance

instance (I : Inst) (σ : Sol) : Decidable (changeoverCountOK I σ) := by
  unfold changeoverCountOK; infer_instance

instance (I : Inst) (σ : Sol) : Decidable (setupCleaningOK I σ) := by
  unfold setupCleaningOK; infer_instance

instance (I : Inst) (σ : Sol) : Decidable (improvedOK I σ) := by
  unfold improvedOK; infer_instance

instance (I : Inst) (σ : Sol) : Decidable (softUtilOK I σ) := by
  unfold softUtilOK; infer_instance

instance (I : Inst) (σ : Sol) : Decidable (dynUtilOK I σ) := by
  unfold dynUtilOK; infer_instance

instance (I : Inst) (σ : Sol) : Decidable (blockOK I σ) := by
  unfold blockOK; infer_instance

instance (I : Inst) (σ : Sol) : Decidable (multiProductOK I σ) := by
  unfold multiProductOK; infer_instance

instance (I : Inst) (σ : Sol) : Decidable (totalChangeoverOK I σ) := by
  unfold totalChangeoverOK; infer_instance

instance (I : Inst) (σ : Sol) : Decidable (timeNormOK I σ) := by
  unfold timeNormOK; infer_instance

instance (I : Inst) (σ : Sol) : Decidable (timeLimitOK I σ) := by
  unfold timeLimitOK; infer_instance

instance (I : Inst) (σ : Sol) : Decidable (Feasible I σ) := by
  unfold Feasible; infer_instance

/-! ### The verification step of `_verify_time_constraints` -/

/-- The Python constraint name `f"total_time_slot_limit_{line}_{time_slot}"`. -/
def totalTimeSlotLimitName (l t : ℕ) : String :=
  "total_time_slot_limit_" ++ toString l ++ "_" ++ toString t

/-- The names registered by the second loop of
`add_time_unit_normalization_constraints`, one per (line, slot). -/
def timeLimitNames (I : Inst) : List String :=
  I.lines.flatMap fun l => I.slots.map fun t => totalTimeSlotLimitName l t

/-- `_verify_time_constraints`: iterate every (line, slot) and count the
pairs whose `total_time_slot_limit` name is present among the registered
constraint names. -/
def verifyTimeConstraintsCount (I : Inst) : ℕ :=
  ((I.lines.flatMap fun l => I.slots.map fun t => (l, t)).filter
    fun lt => decide (totalTimeSlotLimitName lt.1 lt.2 ∈ timeLimitNames I)).length

/-! ### The SolverAdapter (`ProductionOptimizer.solve`) -/

/-- PuLP solver statuses as discriminated by `solve`. -/
inductive SolveStatus
  | Optimal
  | Infeasible
  | Unbounded
  | NotSolved
  | Undefined
deriving DecidableEq

/-- `ProductionOptimizer.solve`: the whole body runs inside try/except;
an exception (from `getSolver` on an unknown name or from the solver
call) yields False; an Optimal status yields True (and the objective
value is read and logged); Infeasible, Unbounded and every other status
yield False.  The outcome of the external, opaque solver invocation is
the argument. -/
def solveSuccess : Except String SolveStatus → Bool
  | Except.ok SolveStatus.Optimal => true
  | Except.ok SolveStatus.Infeasible => false
  | Except.ok SolveStatus.Unbounded => false
  | Except.ok SolveStatus.NotSolved => false
  | Except.ok SolveStatus.Undefined => false
  | Except.error _ => false

/-! ### The SolutionExtractor (`ProductionOptimizer.extract_solution`),
changeover-event derivation.

The extraction pass reads only solved values; we take them as inputs:
`sched l t` is the ordered product list the schedule-extraction loop
already built for (l, t) (the products with solved `production` above
0.5, in catalog order), `chgTimeVal` the solved `changeover_time`
values, and `activePairs l t` the ordered pairs whose solved pairwise
`changeover` indicator is positive.  The fold mirrors the Python loop
over lines and slot indices, threading the global event list and the
`last_prev`/`first_curr` locals, which are assigned ONLY inside the
debugging block that runs for line "16" at slot "월요일_야간"; referencing
them unassigned raises UnboundLocalError, which aborts
`extract_solution`. -/

/-- One entry of `solution['changeover_events']`.  Events from the
intra-slot and inter-slot passes carry from/to products; the events
added by the changeover-time cross-check carry none. -/
structure ChgEvent where
  line : String
  slot : String
  fromProd : Option String
  toProd : Option String
  time : ℚ
deriving DecidableEq

/-- Solved data read by the changeover-event extraction. -/
structure ExtractIn where
  lines : List String
  slots : List String
  sched : String → String → List String
  chgTimeVal : String → String → ℚ
  activePairs : String → String → List (String × String)
  ruleTime : String → String → String → ℚ

/-- State threaded through the loop: the event list built so far and the
`last_prev`/`first_curr` locals (none while still unassigned). -/
structure ExtState where
  events : List ChgEvent
  lastFirst : Option (String × String)

/-- Intra-slot events: one per adjacent pair of the slot's production
list (same-slot adjacency is always a changeover). -/
def intraEvents (E : ExtractIn) (l t : String) (prods : List String) :
    List ChgEvent :=
  (prods.zip prods.tail).map fun pq =>
    ⟨l, t, some pq.1, some pq.2, E.ruleTime pq.1 pq.2 l⟩

/-- The body of the per-(line, slot-index) iteration of the
changeover-event loop of `extract_solution`. -/
def stepSlot (E : ExtractIn) (l : String) (st : ExtState) (k : ℕ) :
    Except String ExtState :=
  let t := E.slots.getD k ""
  let lf1 :=
    if l = "16" ∧ t = "월요일_야간" ∧ 0 < E.chgTimeVal l t then
      let prevP := E.sched l "월요일_조간"
      let currP := E.sched l t
      if prevP ≠ [] ∧ currP ≠ [] then some (prevP.getLastD "", currP.headI)
      else st.lastFirst
    else st.lastFirst
  let ev1 := st.events ++ intraEvents E l t (E.sched l t)
  let ev2 :=
    if 0 < k then
      let prevP := E.sched l (E.slots.getD (k - 1) "")
      let currP := E.sched l t
      if prevP ≠ [] ∧ currP ≠ [] ∧ prevP.getLastD "" ≠ currP.headI then
        ev1 ++ [⟨l, t, some (prevP.getLastD ""), some currP.headI,
          E.ruleTime (prevP.getLastD "") currP.headI l⟩]
      else ev1
    else ev1
  let ct := E.chgTimeVal l t
  if 0 < ct then
    let found := E.activePairs l t ≠ []
    let existing := ev2.any fun e => (e.slot == t) && (e.line == l)
    if existing then Except.ok ⟨ev2, lf1⟩
    else if found then Except.ok ⟨ev2 ++ [⟨l, t, none, none, ct⟩], lf1⟩
    else
      match lf1 with
      | none => Except.error "UnboundLocalError: last_prev"
      | some ab =>
        if ab.1 = ab.2 then
          Except.ok ⟨ev2.filter fun e => !((e.slot == t) && (e.line == l)), lf1⟩
        else Except.ok ⟨ev2, lf1⟩
  else Except.ok ⟨ev2, lf1⟩

/-- The changeover-event derivation of `extract_solution`: fold over
lines, then over slot indices.  Returns the event list, or the uncaught
Python exception. -/
def extractChangeoverEvents (E : ExtractIn) : Except String (List ChgEvent) :=
  match E.lines.foldlM
      (fun st l => (List.range E.slots.length).foldlM (stepSlot E l) st)
      (⟨[], none⟩ : ExtState) with
  | Except.ok st => Except.ok st.events
  | Except.error e => Except.error e

/-! ### The spec's wording of the changeover-detection encoding (§4.2 item
8 of the specification), for comparison with the code-derived
`improvedOK` -/

/-- The changeover-detection constraint family as the specification words
it: for every ordered pair of distinct products sharing a valid line,
the three-inequality AND linearization, intra-slot over adjacent
sequence positions (pos, pos+1) within one slot and inter-slot over the
last position (3) of the previous slot and position 1 of the current
slot; `sequence ≤ production` for every position; and `changeover_time`
equal to the sum of indicator · rule-derived time, equal to 0 when no
pair of distinct products shares the line. -/
def changeoverSpecOK (I : Inst) (σ : Sol) : Prop :=
  ∀ l ∈ I.lines,
    (∀ p1 p2 : ℕ, p1 ≠ p2 → (p1, l) ∈ validCombos I → (p2, l) ∈ validCombos I →
      ∀ k, k < I.slots.length →
        (∀ pos ∈ ([1, 2] : List ℕ),
          andEnc (σ.changeover p1 p2 l (slotAt I k))
            (σ.sequence p1 l (slotAt I k) pos)
            (σ.sequence p2 l (slotAt I k) (pos + 1))) ∧
        (0 < k →
          andEnc (σ.changeover p1 p2 l (slotAt I k))
            (σ.sequence p1 l (slotAt I (k - 1)) 3)
            (σ.sequence p2 l (slotAt I k) 1))) ∧
    (∀ p : ℕ, (p, l) ∈ validCombos I → ∀ t ∈ I.slots,
      ∀ pos ∈ ([1, 2, 3] : List ℕ), σ.sequence p l t pos ≤ σ.production p l t) ∧
    (∀ k, k < I.slots.length →
      ((¬ ∃ p1 p2 : ℕ, p1 ≠ p2 ∧ (p1, l) ∈ validCombos I ∧
          (p2, l) ∈ validCombos I) →
        σ.changeover_time l (slotAt I k) = 0) ∧
      ((∃ p1 p2 : ℕ, p1 ≠ p2 ∧ (p1, l) ∈ validCombos I ∧
          (p2, l) ∈ validCombos I) →
        σ.changeover_time l (slotAt I k) = chgPairTimeSum I σ l (slotAt I k)))

/-! ### Concrete catalog instances and solved assignments used as
witnesses and counterexamples.

`V`: products 1, 2, 3 on lines 1, 2 with two 10-hour slots 0, 1.
Product 1 runs at rate 1 on line 1 and at rate 1/60 on line 2, product 2
only on line 1, product 3 nowhere (rate 0 everywhere, order 5 boxes).
With 60 items per box and one track, line 1 produces one box per hour.
`Vσ` schedules product 1 for 2h in slot 0 plus a dangling 1h of
`production_time` in slot 1 with its `production` binary 0, and product
2 for 3h in slot 1. -/

def V : Inst where
  products := [1, 2, 3]
  lines := [1, 2]
  slots := [0, 1]
  maxHours := fun _ => 10
  rate := fun p l =>
    if p = 1 ∧ l = 1 then 1 else if p = 1 ∧ l = 2 then 1 / 60
    else if p = 2 ∧ l = 1 then 1 else 0
  tracks := fun _ => 1
  itemsPerBox := fun _ => 60
  setup := fun _ => 0
  cleanup := fun _ => 0
  orderQty := fun p => if p = 1 then 3 else if p = 2 then 3 else 5
  chgTime := fun _ _ _ => 1
  targetRate := 99 / 100

/-- A feasible assignment for `V` (checked family by family below). -/
def Vσ : Sol where
  production := fun p l t =>
    if (p = 1 ∧ l = 1 ∧ t = 0) ∨ (p = 2 ∧ l = 1 ∧ t = 1) then 1 else 0
  production_time := fun p l t =>
    if p = 1 ∧ l = 1 ∧ t = 0 then 2
    else if p = 1 ∧ l = 1 ∧ t = 1 then 1
    else if p = 2 ∧ l = 1 ∧ t = 1 then 3 else 0
  changeover := fun _ _ _ _ => 0
  changeover_time := fun _ _ => 0
  cleaning_time := fun _ _ => 0
  changeover_count := fun _ _ => 0
  sequence := fun _ _ _ _ => 0
  block_start := fun p l s =>
    if (p = 1 ∧ l = 1 ∧ s = 0) ∨ (p = 2 ∧ l = 1 ∧ s = 1) then 1 else 0
  underutilSlack := fun _ _ => 100
  dynamicSlack := fun _ _ => 100
  timeSlack := fun _ _ _ => 100

/-- A catalog with a single product 7 on line 1, order quantity 0 and
items-per-box 0 (so its quantity terms are the constant 0, as in the
code's `products_per_box > 0` guard). -/
def WZ : Inst where
  products := [7]
  lines := [1]
  slots := [0, 1]
  maxHours := fun _ => 10
  rate := fun _ _ => 1
  tracks := fun _ => 1
  itemsPerBox := fun _ => 0
  setup := fun _ => 0
  cleanup := fun _ => 0
  orderQty := fun _ => 0
  chgTime := fun _ _ _ => 1
  targetRate := 99 / 100

/-- A feasible assignment for `WZ`: the forced minimum of one production
hour in slot 0. -/
def WZσ : Sol where
  production := fun _ _ t => if t = 0 then 1 else 0
  production_time := fun _ _ t => if t = 0 then 1 else 0
  changeover := fun _ _ _ _ => 0
  changeover_time := fun _ _ => 0
  cleaning_time := fun _ _ => 0
  changeover_count := fun _ _ => 0
  sequence := fun _ _ _ _ => 0
  block_start := fun _ _ s => if s = 0 then 1 else 0
  underutilSlack := fun _ _ => 100
  dynamicSlack := fun _ _ => 100
  timeSlack := fun _ _ _ => 100

/-- A catalog with a single product 9 on line 1 with order quantity 0
but positive rate, track count and items-per-box: its quantity
constraint forces all its production times to 0 while block continuity
and minimum production time force one hour. -/
def C6I : Inst where
  products := [9]
  lines := [1]
  slots := [0, 1]
  maxHours := fun _ => 10
  rate := fun _ _ => 1
  tracks := fun _ => 1
  itemsPerBox := fun _ => 60
  setup := fun _ => 0
  cleanup := fun _ => 0
  orderQty := fun _ => 0
  chgTime := fun _ _ _ => 1
  targetRate := 99 / 100

/-- The all-zero assignment (used to evaluate single constraint
families in isolation). -/
def σ0 : Sol where
  production := fun _ _ _ => 0
  production_time := fun _ _ _ => 0
  changeover := fun _ _ _ _ => 0
  changeover_time := fun _ _ => 0
  cleaning_time := fun _ _ => 0
  changeover_count := fun _ _ => 0
  sequence := fun _ _ _ _ => 0
  block_start := fun _ _ _ => 0
  underutilSlack := fun _ _ => 0
  dynamicSlack := fun _ _ => 0
  timeSlack := fun _ _ _ => 0

/-- Solved data on which the changeover-event extraction crashes: a
single line "11" over the two Monday slots, the same product "A"
scheduled in both, and a solved `changeover_time` of 1 in the night slot
with no active pairwise indicator (the inconsistency the cross-check is
for). -/
def C8ex : ExtractIn where
  lines := ["11"]
  slots := ["월요일_조간", "월요일_야간"]
  sched := fun _ _ => ["A"]
  chgTimeVal := fun _ t => if t = "월요일_야간" then 1 else 0
  activePairs := fun _ _ => []
  ruleTime := fun _ _ _ => 1

/-! ### Helper lemmas about the embedded build -/

theorem mem_linePairs {I : Inst} {l p1 p2 : ℕ} :
    (p1, p2) ∈ linePairs I l ↔
      (p1, l) ∈ validCombos I ∧ (p2, l) ∈ validCombos I ∧ p1 ≠ p2 := by
  constructor
  · intro h
    rcases List.mem_flatMap.mp h with ⟨pl1, h1, h2⟩
    rcases List.mem_filterMap.mp h2 with ⟨pl2, h3, h4⟩
    rcases pl1 with ⟨q1, r1⟩
    rcases pl2 with ⟨q2, r2⟩
    by_cases hc : r1 = l ∧ r2 = l ∧ q1 ≠ q2
    · rw [if_pos (by simpa using hc)] at h4
      simp only [Option.some.injEq, Prod.mk.injEq] at h4
      obtain ⟨rfl, rfl⟩ := h4
      obtain ⟨rfl, rfl, hne⟩ := hc
      exact ⟨h1, h3, hne⟩
    · rw [if_neg (by simpa using hc)] at h4
      cases h4
  · rintro ⟨h1, h2, hne⟩
    refine List.mem_flatMap.mpr ⟨(p1, l), h1, List.mem_filterMap.mpr ⟨(p2, l), h2, ?_⟩⟩
    simp [hne]

theorem linePairs_eq_nil_iff {I : Inst} {l : ℕ} :
    linePairs I l = [] ↔
      ¬ ∃ p1 p2 : ℕ,
        p1 ≠ p2 ∧ (p1, l) ∈ validCombos I ∧ (p2, l) ∈ validCombos I := by
  rw [List.eq_nil_iff_forall_not_mem]
  constructor
  · rintro h ⟨p1, p2, hne, h1, h2⟩
    exact h (p1, p2) (mem_linePairs.mpr ⟨h1, h2, hne⟩)
  · rintro h ⟨p1, p2⟩ hmem
    obtain ⟨h1, h2, hne⟩ := mem_linePairs.mp hmem
    exact h ⟨p1, p2, hne, h1, h2⟩

theorem slotAt_mem {I : Inst} {k : ℕ} (h : k < I.slots.length) :
    slotAt I k ∈ I.slots := by
  unfold slotAt
  rw [List.getD_eq_getElem I.slots 0 h]
  exact I.slots.getElem_mem h

theorem exists_slotAt_of_mem {I : Inst} {t : ℕ} (h : t ∈ I.slots) :
    ∃ k, ∃ _ : k < I.slots.length, slotAt I k = t := by
  obtain ⟨n, hn, rfl⟩ := List.mem_iff_getElem.mp h
  exact ⟨n, hn, List.getD_eq_getElem I.slots 0 hn⟩

theorem one_le_max_toNat (c : ℤ) : 1 ≤ (max 1 c).toNat := by
  have h := le_max_left 1 c
  omega

theorem requiredSlots_pos (I : Inst) (p l : ℕ) : 1 ≤ requiredSlots I p l := by
  unfold requiredSlots
  exact one_le_max_toNat _

theorem requiredSlots_of_qty_zero {I : Inst} {p : ℕ} (l : ℕ)
    (hq : I.orderQty p = 0) : requiredSlots I p l = 1 := by
  unfold requiredSlots
  rw [hq]
  norm_num

theorem exists_one_of_sum_eq_one {xs : List ℚ}
    (hb : ∀ x ∈ xs, x = 0 ∨ x = 1) (hs : xs.sum = 1) : ∃ x ∈ xs, x = 1 := by
  induction xs with
  | nil => simp at hs
  | cons a as ih =>
    rcases hb a (List.mem_cons_self a as) with h0 | h1
    · have hsum : as.sum = 1 := by
        rw [List.sum_cons, h0, zero_add] at hs
        exact hs
      obtain ⟨x, hx, hx1⟩ := ih (fun x hx => hb x (List.mem_cons_of_mem a hx)) hsum
      exact ⟨x, List.mem_cons_of_mem a hx, hx1⟩
    · exact ⟨a, List.mem_cons_self a as, h1⟩

/-- When a valid combination has at least one feasible block start, the
block-continuity constraints select exactly one start and together with
the minimum-production-time constraint force a full production hour on
some slot. -/
theorem blockOK_forces {I : Inst} {σ : Sol} (hF : Feasible I σ)
    {pl : ℕ × ℕ} (hmem : pl ∈ validCombos I)
    (hns : 0 < numStarts I pl.1 pl.2) :
    (((List.range (numStarts I pl.1 pl.2)).map fun s =>
        σ.block_start pl.1 pl.2 s).sum = 1) ∧
    ∃ t ∈ I.slots, σ.production pl.1 pl.2 t = 1 ∧
      1 ≤ σ.production_time pl.1 pl.2 t := by
  obtain ⟨hvb, -, -, -, -, -, -, hbl, -, -, htn, -⟩ := hF
  obtain ⟨hcont, huniq⟩ := hbl pl hmem
  have hsum := huniq hns
  refine ⟨hsum, ?_⟩
  have hbin : ∀ x ∈ (List.range (numStarts I pl.1 pl.2)).map fun s =>
      σ.block_start pl.1 pl.2 s, x = 0 ∨ x = 1 := by
    intro x hx
    rcases List.mem_map.mp hx with ⟨s, hs, rfl⟩
    exact hvb.2.2.2 pl hmem s hs
  obtain ⟨x, hx, hx1⟩ := exists_one_of_sum_eq_one hbin hsum
  rcases List.mem_map.mp hx with ⟨s, hsrange, rfl⟩
  have hslt : s < numStarts I pl.1 pl.2 := List.mem_range.mp hsrange
  have hreq := requiredSlots_pos I pl.1 pl.2
  have hklen : s < I.slots.length := by
    unfold numStarts at hslt
    omega
  have hprod := hcont s hsrange s (List.mem_range.mpr (by omega)) le_rfl hklen
  rw [hx1] at hprod
  have htmem : slotAt I s ∈ I.slots := slotAt_mem hklen
  have hbinp := (hvb.1 pl hmem (slotAt I s) htmem).1
  have hp1 : σ.production pl.1 pl.2 (slotAt I s) = 1 := by
    rcases hbinp with h0 | h1
    · rw [h0] at hprod
      linarith
    · exact h1
  have htime := (htn pl hmem (slotAt I s) htmem).1
  rw [hp1] at htime
  exact ⟨slotAt I s, htmem, hp1, by linarith⟩

theorem timeLimitName_mem {I : Inst} {l t : ℕ}
    (hl : l ∈ I.lines) (ht : t ∈ I.slots) :
    totalTimeSlotLimitName l t ∈ timeLimitNames I :=
  List.mem_flatMap.mpr ⟨l, hl, List.mem_map.mpr ⟨t, ht, rfl⟩⟩

theorem sum_const_len {α : Type} (ls : List α) (n : ℕ) :
    (ls.map fun _ => n).sum = ls.length * n := by
  induction ls with
  | nil => simp
  | cons a as ih =>
    simp only [List.map_cons, List.sum_cons, ih, List.length_cons]
    ring

theorem verifyTimeConstraintsCount_eq (I : Inst) :
    verifyTimeConstraintsCount I = I.lines.length * I.slots.length := by
  unfold verifyTimeConstraintsCount
  rw [List.filter_eq_self.mpr]
  · rw [List.length_flatMap]
    simp only [Function.comp_def, List.length_map]
    rw [sum_const_len]
  · intro lt hmem
    rcases List.mem_flatMap.mp hmem with ⟨l, hl, hmem2⟩
    rcases List.mem_map.mp hmem2 with ⟨t, ht, rfl⟩
    simpa using timeLimitName_mem hl ht

/-! ### Evaluation of the derived build data on the concrete instances -/

theorem range_two : List.range 2 = [0, 1] := rfl

theorem V_valid : validCombos V = [(1, 1), (1, 2), (2, 1)] := by
  norm_num [validCombos, V]

theorem V_pairs_1 : linePairs V 1 = [(1, 2), (2, 1)] := by
  norm_num [linePairs, V_valid, List.filterMap_cons]

theorem V_pairs_2 : linePairs V 2 = [] := by
  norm_num [linePairs, V_valid, List.filterMap_cons]

theorem V_req_11 : requiredSlots V 1 1 = 1 := by
  unfold requiredSlots
  have h : ⌈V.orderQty 1 /
      (V.rate 1 1 * V.tracks 1 * 60 /
        (if V.itemsPerBox 1 = 0 then 1 else V.itemsPerBox 1)) /
      V.maxHours V.slots.headI⌉ = 1 := by
    rw [Int.ceil_eq_iff]
    norm_num [V]
  rw [h]
  rfl

theorem V_req_12 : requiredSlots V 1 2 = 18 := by
  unfold requiredSlots
  have h : ⌈V.orderQty 1 /
      (V.rate 1 2 * V.tracks 2 * 60 /
        (if V.itemsPerBox 1 = 0 then 1 else V.itemsPerBox 1)) /
      V.maxHours V.slots.headI⌉ = 18 := by
    rw [Int.ceil_eq_iff]
    norm_num [V]
  rw [h]
  rfl

theorem V_req_21 : requiredSlots V 2 1 = 1 := by
  unfold requiredSlots
  have h : ⌈V.orderQty 2 /
      (V.rate 2 1 * V.tracks 1 * 60 /
        (if V.itemsPerBox 2 = 0 then 1 else V.itemsPerBox 2)) /
      V.maxHours V.slots.headI⌉ = 1 := by
    rw [Int.ceil_eq_iff]
    norm_num [V]
  rw [h]
  rfl

theorem V_ns_11 : numStarts V 1 1 = 2 := by
  unfold numStarts
  rw [V_req_11]
  rfl

theorem V_ns_12 : numStarts V 1 2 = 0 := by
  unfold numStarts
  rw [V_req_12]
  rfl

theorem V_ns_21 : numStarts V 2 1 = 2 := by
  unfold numStarts
  rw [V_req_21]
  rfl

theorem V_products : V.products = [1, 2, 3] := rfl

theorem V_lines : V.lines = [1, 2] := rfl

theorem V_slots : V.slots = [0, 1] := rfl

theorem V_maxHours (t : ℕ) : V.maxHours t = 10 := rfl

theorem V_tracks (l : ℕ) : V.tracks l = 1 := rfl

theorem V_box (p : ℕ) : V.itemsPerBox p = 60 := rfl

theorem V_setup (l : ℕ) : V.setup l = 0 := rfl

theorem V_cleanup (l : ℕ) : V.cleanup l = 0 := rfl

theorem V_target : V.targetRate = 99 / 100 := rfl

theorem V_rate_11 : V.rate 1 1 = 1 := rfl

theorem V_rate_12 : V.rate 1 2 = 1 / 60 := rfl

theorem V_rate_21 : V.rate 2 1 = 1 := rfl

theorem V_rate_22 : V.rate 2 2 = 0 := rfl

theorem V_qty_1 : V.orderQty 1 = 3 := rfl

theorem V_qty_2 : V.orderQty 2 = 3 := rfl

theorem V_qty_3 : V.orderQty 3 = 5 := rfl

theorem V_smalls_1 (t : ℕ) : smallProducts V 1 t = [1, 2] := by
  norm_num [smallProducts, V_valid, V_products, V_maxHours, V_tracks, V_box,
    V_rate_11, V_rate_21, V_qty_1, V_qty_2, V_qty_3, List.filter]

theorem V_smalls_2 (t : ℕ) : smallProducts V 2 t = [] := by
  norm_num [smallProducts, V_valid, V_products, V_maxHours, V_tracks, V_box,
    V_rate_12, V_rate_22, V_qty_1, V_qty_2, V_qty_3, List.filter]

theorem V_varBounds : varBoundsOK V Vσ := by
  norm_num [varBoundsOK, binaryQ, V_valid, V_pairs_1, V_pairs_2, V_lines, V_slots,
    V_ns_11, V_ns_12, V_ns_21, Vσ, range_two, List.forall_mem_cons]
  omega

theorem V_prodQty : prodQtyOK V Vσ := by
  norm_num [prodQtyOK, totalBoxes, V_valid, V_products, V_lines, V_slots,
    V_maxHours, V_tracks, V_box, V_rate_11, V_rate_12, V_rate_21, V_rate_22,
    V_qty_1, V_qty_2, V_qty_3, Vσ, List.forall_mem_cons, List.filter]

theorem V_chgCount : changeoverCountOK V Vσ := by
  norm_num [changeoverCountOK, pairChangeoverSum, V_pairs_1, V_pairs_2, V_lines,
    V_slots, Vσ, List.forall_mem_cons]

theorem V_setupCleaning : setupCleaningOK V Vσ := by
  norm_num [setupCleaningOK, V_lines, V_slots, V_setup, V_cleanup, slotAt, Vσ,
    List.forall_mem_cons]

theorem V_improved : improvedOK V Vσ := by
  norm_num [improvedOK, andEnc, chgPairTimeSum, V_valid, V_pairs_1, V_pairs_2,
    V_lines, V_slots, slotAt, Vσ, range_two, List.forall_mem_cons]

theorem V_softUtil : softUtilOK V Vσ := by
  norm_num [softUtilOK, softProdTimeSum, V_lines, V_slots, V_products, V_valid,
    V_maxHours, Vσ, List.forall_mem_cons, List.filter]

theorem V_dynUtil : dynUtilOK V Vσ := by
  norm_num [dynUtilOK, softProdTimeSum, V_lines, V_slots, V_products, V_valid,
    V_maxHours, V_target, Vσ, List.forall_mem_cons, List.filter]

theorem V_block : blockOK V Vσ := by
  norm_num [blockOK, V_valid, V_ns_11, V_ns_12, V_ns_21, V_req_11, V_req_12,
    V_req_21, V_slots, slotAt, Vσ, range_two, List.forall_mem_cons]
  constructor <;> intro s hs k hk hsk hk2 <;> interval_cases s <;>
    interval_cases k <;> simp

theorem V_multi : multiProductOK V Vσ := by
  norm_num [multiProductOK, V_smalls_1, V_smalls_2, V_lines, V_slots, Vσ,
    List.forall_mem_cons]

theorem V_totalChg : totalChangeoverOK V Vσ := by
  norm_num [totalChangeoverOK, V_lines, V_slots, Vσ]

theorem V_timeNorm : timeNormOK V Vσ := by
  norm_num [timeNormOK, V_valid, V_slots, V_maxHours, Vσ, List.forall_mem_cons]

theorem V_timeLimit : timeLimitOK V Vσ := by
  norm_num [timeLimitOK, prodTimeSumLine, V_valid, V_lines, V_slots, V_maxHours,
    Vσ, List.forall_mem_cons, List.filterMap_cons]

/-- `Vσ` satisfies every constraint family the build emits for `V`. -/
theorem V_feasible : Feasible V Vσ :=
  ⟨V_varBounds, V_prodQty, V_chgCount, V_setupCleaning, V_improved, V_softUtil,
   V_dynUtil, V_block, V_multi, V_totalChg, V_timeNorm, V_timeLimit⟩

theorem WZ_valid : validCombos WZ = [(7, 1)] := by
  norm_num [validCombos, WZ]

theorem WZ_pairs_1 : linePairs WZ 1 = [] := by
  norm_num [linePairs, WZ_valid, List.filterMap_cons]

theorem WZ_lines : WZ.lines = [1] := rfl

theorem WZ_slots : WZ.slots = [0, 1] := rfl

theorem WZ_products : WZ.products = [7] := rfl

theorem WZ_maxHours (t : ℕ) : WZ.maxHours t = 10 := rfl

theorem WZ_box (p : ℕ) : WZ.itemsPerBox p = 0 := rfl

theorem WZ_setup (l : ℕ) : WZ.setup l = 0 := rfl

theorem WZ_cleanup (l : ℕ) : WZ.cleanup l = 0 := rfl

theorem WZ_qty (p : ℕ) : WZ.orderQty p = 0 := rfl

theorem WZ_rate (p l : ℕ) : WZ.rate p l = 1 := rfl

theorem WZ_target : WZ.targetRate = 99 / 100 := rfl

theorem WZ_req : requiredSlots WZ 7 1 = 1 :=
  requiredSlots_of_qty_zero 1 rfl

theorem WZ_ns : numStarts WZ 7 1 = 2 := by
  unfold numStarts
  rw [WZ_req]
  rfl

theorem WZ_smalls (l t : ℕ) : smallProducts WZ l t = [] := by
  norm_num [smallProducts, WZ_products, WZ_qty, List.filter]

theorem WZ_varBounds : varBoundsOK WZ WZσ := by
  norm_num [varBoundsOK, binaryQ, WZ_valid, WZ_pairs_1, WZ_lines, WZ_slots,
    WZ_ns, WZσ, range_two, List.forall_mem_cons]
  omega

theorem WZ_prodQty : prodQtyOK WZ WZσ := by
  norm_num [prodQtyOK, totalBoxes, WZ_valid, WZ_products, WZ_lines, WZ_slots,
    WZ_box, WZ_qty, WZσ, List.forall_mem_cons, List.filter]

theorem WZ_chgCount : changeoverCountOK WZ WZσ := by
  norm_num [changeoverCountOK, pairChangeoverSum, WZ_pairs_1, WZ_lines,
    WZ_slots, WZσ, List.forall_mem_cons]

theorem WZ_setupCleaning : setupCleaningOK WZ WZσ := by
  norm_num [setupCleaningOK, WZ_lines, WZ_slots, WZ_setup, WZ_cleanup, slotAt,
    WZσ, List.forall_mem_cons]

theorem WZ_improved : improvedOK WZ WZσ := by
  norm_num [improvedOK, andEnc, chgPairTimeSum, WZ_valid, WZ_pairs_1, WZ_lines,
    WZ_slots, slotAt, WZσ, range_two, List.forall_mem_cons]

theorem WZ_softUtil : softUtilOK WZ WZσ := by
  norm_num [softUtilOK, softProdTimeSum, WZ_lines, WZ_slots, WZ_products,
    WZ_valid, WZ_maxHours, WZσ, List.forall_mem_cons, List.filter]

theorem WZ_dynUtil : dynUtilOK WZ WZσ := by
  norm_num [dynUtilOK, softProdTimeSum, WZ_lines, WZ_slots, WZ_products,
    WZ_valid, WZ_maxHours, WZ_target, WZσ, List.forall_mem_cons, List.filter]

theorem WZ_block : blockOK WZ WZσ := by
  norm_num [blockOK, WZ_valid, WZ_ns, WZ_req, WZ_slots, slotAt, WZσ, range_two,
    List.forall_mem_cons]
  intro s hs k hk hsk hk2
  interval_cases s <;> interval_cases k <;> simp

theorem WZ_multi : multiProductOK WZ WZσ := by
  norm_num [multiProductOK, WZ_smalls, WZ_lines, WZ_slots, WZσ,
    List.forall_mem_cons]

theorem WZ_totalChg : totalChangeoverOK WZ WZσ := by
  norm_num [totalChangeoverOK, WZ_lines, WZ_slots, WZσ]

theorem WZ_timeNorm : timeNormOK WZ WZσ := by
  norm_num [timeNormOK, WZ_valid, WZ_slots, WZ_maxHours, WZσ,
    List.forall_mem_cons]

theorem WZ_timeLimit : timeLimitOK WZ WZσ := by
  norm_num [timeLimitOK, prodTimeSumLine, WZ_valid, WZ_lines, WZ_slots,
    WZ_maxHours, WZσ, List.forall_mem_cons, List.filterMap_cons]

/-- `WZσ` satisfies every constraint family the build emits for `WZ`. -/
theorem WZ_feasible : Feasible WZ WZσ :=
  ⟨WZ_varBounds, WZ_prodQty, WZ_chgCount, WZ_setupCleaning, WZ_improved,
   WZ_softUtil, WZ_dynUtil, WZ_block, WZ_multi, WZ_totalChg, WZ_timeNorm,
   WZ_timeLimit⟩

theorem C6I_valid : validCombos C6I = [(9, 1)] := by
  norm_num [validCombos, C6I]

theorem C6I_ns : numStarts C6I 9 1 = 2 := by
  unfold numStarts
  rw [requiredSlots_of_qty_zero 1 rfl]
  rfl

/-! ### The claims -/

/-- C1, counterexample: the claim that in every feasible solution
`production_time[p,l,t] > 0` implies `production[p,l,t] = 1` is false:
`Vσ` is feasible for `V`, yet on the valid combination (1, 1) at slot 1
the solved `production_time` is 1 > 0 while the `production` binary is
0.  (The code removed the upper big-M link of `production_time` to
`production`, keeping only `production_time ≥ 1 · production`.) -/
theorem C1_counterexample :
    Feasible V Vσ ∧ (1, 1) ∈ validCombos V ∧ (1 : ℕ) ∈ V.slots ∧
    0 < Vσ.production_time 1 1 1 ∧ Vσ.production 1 1 1 ≠ 1 := by
  refine ⟨V_feasible, ?_, ?_, ?_, ?_⟩ <;> norm_num [V_valid, V_slots, Vσ]

/-- C1, amended: for every valid (product, line) combination and slot,
every feasible solution satisfies the minimum-production-time link
`production[p,l,t] = 1 → production_time[p,l,t] ≥ 1`; the converse
direction claimed by the spec (positive time forces the binary to 1) is
not enforced by the built model. -/
theorem C1_min_time_link (I : Inst) (σ : Sol) (hF : Feasible I σ) :
    ∀ pl ∈ validCombos I, ∀ t ∈ I.slots,
      σ.production pl.1 pl.2 t = 1 → 1 ≤ σ.production_time pl.1 pl.2 t := by
  intro pl hmem t ht hp
  obtain ⟨-, -, -, -, -, -, -, -, -, -, htn, -⟩ := hF
  have h := (htn pl hmem t ht).1
  rw [hp] at h
  linarith

theorem C1_witness : 1 ≤ Vσ.production_time 1 1 0 :=
  C1_min_time_link V Vσ V_feasible (1, 1) (by norm_num [V_valid]) 0
    (by norm_num [V_slots]) (by norm_num [Vσ])

/-- C2: in every feasible solution of the built model, every product
with at least one valid line has its total produced boxes (production
time · rate · tracks · 60 / items-per-box summed over valid lines and
slots) exactly equal to its order quantity — the two inequalities with
ratio 1.0 pin it; and a product with no valid line receives no quantity
constraint: `V` with its line-less product 3 (order 5 boxes, produced 0)
still admits the feasible solution `Vσ`, the build simply skipping the
product. -/
theorem C2_production_quantity :
    (∀ (I : Inst) (σ : Sol), Feasible I σ → ∀ p ∈ I.products,
      (∃ l ∈ I.lines, (p, l) ∈ validCombos I) →
        totalBoxes I σ p = I.orderQty p) ∧
    (Feasible V Vσ ∧ ¬ (∃ l ∈ V.lines, (3, l) ∈ validCombos V) ∧
      V.orderQty 3 = 5 ∧ totalBoxes V Vσ 3 = 0) := by
  constructor
  · intro I σ hF p hp hval
    obtain ⟨-, hq, -⟩ := hF
    obtain ⟨h1, h2⟩ := hq p hp hval
    rw [mul_one] at h1 h2
    exact le_antisymm h2 h1
  · refine ⟨V_feasible, ?_, V_qty_3, ?_⟩
    · norm_num [V_valid, V_lines]
    · norm_num [totalBoxes, V_valid, V_lines, List.filter]

theorem C2_witness : totalBoxes V Vσ 1 = V.orderQty 1 :=
  C2_production_quantity.1 V Vσ V_feasible 1 (by norm_num [V_products])
    ⟨1, by norm_num [V_lines], by norm_num [V_valid]⟩

/-- C3: every feasible solution of the built model satisfies, for every
(line, slot), the hard `total_time_slot_limit_{line}_{slot}` bound: line
production-time sum plus changeover time plus the boundary cleaning time
(the cleaning variable at the first and at the last slot) is at most the
slot's max working hours; and the post-build `_verify_time_constraints`
step, which checks every (line, slot) for a registered
`total_time_slot_limit` constraint, finds all lines · slots of them. -/
theorem C3_total_time_limit :
    (∀ (I : Inst) (σ : Sol), Feasible I σ → ∀ l ∈ I.lines, ∀ t ∈ I.slots,
      prodTimeSumLine I σ l t + σ.changeover_time l t +
        (if t = I.slots.headI then σ.cleaning_time l t else 0) +
        (if t = I.slots.getLastD 0 then σ.cleaning_time l t else 0) ≤
        I.maxHours t) ∧
    (∀ I : Inst,
      verifyTimeConstraintsCount I = I.lines.length * I.slots.length) := by
  constructor
  · intro I σ hF
    exact hF.2.2.2.2.2.2.2.2.2.2.2
  · exact verifyTimeConstraintsCount_eq

theorem C3_witness :
    prodTimeSumLine V Vσ 1 0 + Vσ.changeover_time 1 0 +
      (if (0 : ℕ) = V.slots.headI then Vσ.cleaning_time 1 0 else 0) +
      (if (0 : ℕ) = V.slots.getLastD 0 then Vσ.cleaning_time 1 0 else 0) ≤
      V.maxHours 0 :=
  C3_total_time_limit.1 V Vσ V_feasible 1 (by norm_num [V_lines]) 0
    (by norm_num [V_slots])

/-- C4: the changeover-detection family emitted by
`_add_improved_constraints` (`improvedOK`, translated from the code's
loops over the valid-combination list) is exactly the specification's
encoding (`changeoverSpecOK`): for every ordered pair of distinct
products sharing a valid line, the 3-inequality AND linearization
`z ≤ a; z ≤ b; z ≥ a + b − 1`, intra-slot over adjacent positions
(pos, pos+1) and inter-slot over the previous slot's last position and
the current slot's position 1, plus `sequence ≤ production` for every
position, plus `changeover_time` pinned to the indicator-weighted rule
times and to 0 when no pair exists; and every feasible solution
satisfies it. -/
theorem C4_changeover_encoding (I : Inst) (σ : Sol) :
    (improvedOK I σ ↔ changeoverSpecOK I σ) ∧
    (Feasible I σ → changeoverSpecOK I σ) := by
  have hiff : improvedOK I σ ↔ changeoverSpecOK I σ := by
    constructor
    · intro h l hl
      refine ⟨?_, ?_, ?_⟩
      · intro p1 p2 hne h1 h2 k hk
        obtain ⟨hintra, hinter, -, -⟩ := h l hl k (List.mem_range.mpr hk)
        have hpq : (p1, p2) ∈ linePairs I l := mem_linePairs.mpr ⟨h1, h2, hne⟩
        exact ⟨fun pos hpos => hintra pos hpos (p1, p2) hpq,
               fun hk0 => hinter hk0 (p1, p2) hpq⟩
      · intro p hp t ht pos hpos
        obtain ⟨k, hk, hteq⟩ := exists_slotAt_of_mem ht
        obtain ⟨-, -, hseq, -⟩ := h l hl k (List.mem_range.mpr hk)
        have hres := hseq (p, l) hp rfl pos hpos
        rwa [hteq] at hres
      · intro k hk
        obtain ⟨-, -, -, hct⟩ := h l hl k (List.mem_range.mpr hk)
        constructor
        · intro hno
          exact hct.1 (linePairs_eq_nil_iff.mpr hno)
        · intro hyes
          apply hct.2
          rw [Ne, linePairs_eq_nil_iff]
          exact not_not_intro hyes
    · intro h l hl k hkr
      have hk := List.mem_range.mp hkr
      obtain ⟨hpairs, hseq, hct⟩ := h l hl
      refine ⟨?_, ?_, ?_, ?_⟩
      · intro pos hpos pq hpq
        obtain ⟨p1, p2⟩ := pq
        obtain ⟨h1, h2, hne⟩ := mem_linePairs.mp hpq
        exact (hpairs p1 p2 hne h1 h2 k hk).1 pos hpos
      · intro hk0 pq hpq
        obtain ⟨p1, p2⟩ := pq
        obtain ⟨h1, h2, hne⟩ := mem_linePairs.mp hpq
        exact (hpairs p1 p2 hne h1 h2 k hk).2 hk0
      · intro pl hpl hpl2 pos hpos
        obtain ⟨p, l2⟩ := pl
        dsimp only at hpl2
        subst hpl2
        exact hseq p hpl (slotAt I k) (slotAt_mem hk) pos hpos
      · have h2 := hct k hk
        constructor
        · intro hnil
          exact h2.1 (linePairs_eq_nil_iff.mp hnil)
        · intro hne
          apply h2.2
          by_contra hno
          exact hne (linePairs_eq_nil_iff.mpr hno)
  exact ⟨hiff, fun hF => hiff.mp hF.2.2.2.2.1⟩

theorem C4_witness : changeoverSpecOK V Vσ :=
  (C4_changeover_encoding V Vσ).2 V_feasible

/-- C5: in every feasible solution, `changeover_count[l,t]` is pinned by
a ≥ and a ≤ inequality (hence equal) to the sum of the pairwise
changeover indicators of the slot, and the global sum of
`changeover_count` over all lines and slots is hard-bounded by the
default ceiling 5. -/
theorem C5_changeover_count_cap (I : Inst) (σ : Sol) (hF : Feasible I σ) :
    (∀ l ∈ I.lines, ∀ t ∈ I.slots,
      pairChangeoverSum I σ l t ≤ σ.changeover_count l t ∧
      σ.changeover_count l t ≤ pairChangeoverSum I σ l t ∧
      σ.changeover_count l t = pairChangeoverSum I σ l t) ∧
    (I.lines.flatMap fun l => I.slots.map fun t =>
      σ.changeover_count l t).sum ≤ 5 := by
  obtain ⟨-, -, hcc, -, -, -, -, -, -, htc, -, -⟩ := hF
  refine ⟨?_, htc⟩
  intro l hl t ht
  obtain ⟨h1, h2⟩ := hcc l hl t ht
  exact ⟨h1, h2, le_antisymm h2 h1⟩

theorem C5_witness :
    (V.lines.flatMap fun l => V.slots.map fun t =>
      Vσ.changeover_count l t).sum ≤ 5 :=
  (C5_changeover_count_cap V Vσ V_feasible).2

/-- C6, counterexample: for the catalog `C6I`, whose product 9 has order
quantity 0 and a valid line, the claim that the model admits a feasible
assignment with all of the product's `production_time` zero is false:
block continuity (required slots is `max(1, ·) = 1` even at quantity 0)
selects a start and the minimum-production-time constraint then forces
one full hour. -/
theorem C6_counterexample :
    ¬ ∃ σ : Sol, Feasible C6I σ ∧ ∀ t ∈ C6I.slots,
      σ.production_time 9 1 t = 0 := by
  rintro ⟨σ, hF, hz⟩
  have hmem : (9, 1) ∈ validCombos C6I := by norm_num [C6I_valid]
  have hns : 0 < numStarts C6I 9 1 := by rw [C6I_ns]; norm_num
  obtain ⟨-, t, ht, -, htime⟩ := blockOK_forces hF hmem hns
  rw [hz t ht] at htime
  linarith

/-- C6, amended: the quantity constraint of a zero-quantity product is
indeed trivially satisfied when all its production times are zero (first
conjunct), but the built model does not admit such an assignment: in
every feasible solution, every valid combination of a zero-quantity
product still carries at least one slot with `production_time ≥ 1`,
because `_calculate_required_time_slots` returns `max(1, ·)` and block
continuity plus the minimum-production-time constraint fire (second
conjunct). -/
theorem C6_zero_quantity_amended :
    (∀ (I : Inst) (σ : Sol) (p : ℕ),
      (∀ l ∈ I.lines, ∀ t ∈ I.slots, σ.production_time p l t = 0) →
      I.orderQty p = 0 →
      I.orderQty p * 1 ≤ totalBoxes I σ p ∧
        totalBoxes I σ p ≤ I.orderQty p * 1) ∧
    (∀ (I : Inst) (σ : Sol), Feasible I σ → ∀ pl ∈ validCombos I,
      I.orderQty pl.1 = 0 → I.slots ≠ [] →
      ∃ t ∈ I.slots, 1 ≤ σ.production_time pl.1 pl.2 t) := by
  constructor
  · intro I σ p hz hq
    have h0 : totalBoxes I σ p = 0 := by
      unfold totalBoxes
      apply List.sum_eq_zero
      intro x hx
      rcases List.mem_map.mp hx with ⟨l, hl, rfl⟩
      apply List.sum_eq_zero
      intro y hy
      rcases List.mem_map.mp hy with ⟨t, ht, rfl⟩
      have hl2 : l ∈ I.lines := (List.mem_filter.mp hl).1
      rw [hz l hl2 t ht]
      simp
    rw [h0, hq]
    norm_num
  · intro I σ hF pl hmem hq hne
    have hns : 0 < numStarts I pl.1 pl.2 := by
      unfold numStarts
      rw [requiredSlots_of_qty_zero pl.2 hq]
      have hlen := List.length_pos.mpr hne
      omega
    obtain ⟨-, t, ht, -, htime⟩ := blockOK_forces hF hmem hns
    exact ⟨t, ht, htime⟩

theorem C6_witness :
    (C6I.orderQty 9 * 1 ≤ totalBoxes C6I σ0 9 ∧
      totalBoxes C6I σ0 9 ≤ C6I.orderQty 9 * 1) ∧
    ∃ t ∈ WZ.slots, 1 ≤ WZσ.production_time 7 1 t :=
  ⟨C6_zero_quantity_amended.1 C6I σ0 9 (fun _ _ _ _ => rfl) rfl,
   C6_zero_quantity_amended.2 WZ WZσ WZ_feasible (7, 1)
     (by norm_num [WZ_valid]) rfl (by rw [WZ_slots]; decide)⟩

/-- C7: `solve` returns success exactly when the external solver
invocation completes without exception and reports the Optimal status;
Infeasible, Unbounded, every other status, and a raised exception all
map to failure, and the function is total (it never rethrows). -/
theorem C7_solve_status_map (r : Except String SolveStatus) :
    solveSuccess r = true ↔ r = Except.ok SolveStatus.Optimal := by
  cases r with
  | error e => simp [solveSuccess]
  | ok s => cases s <;> simp [solveSuccess]

theorem C7_witness :
    solveSuccess (Except.ok SolveStatus.Optimal) = true ↔
      (Except.ok SolveStatus.Optimal : Except String SolveStatus) =
        Except.ok SolveStatus.Optimal :=
  C7_solve_status_map (Except.ok SolveStatus.Optimal)

/-- C8: evaluating the changeover-event extraction on `C8ex` — a line
other than "16" whose night slot has a positive solved changeover time
with no active pairwise indicator and no previously recorded event — the
code reaches the comparison `last_prev == first_curr` with both names
still unassigned (they are bound only inside the line-"16" debug block)
and raises UnboundLocalError, aborting extraction instead of only
logging the warning. -/
theorem C8_extract_unbound :
    extractChangeoverEvents C8ex =
      Except.error "UnboundLocalError: last_prev" := by
  rfl

/-- C9, counterexample: the implicit claim that every valid (product,
line) combination selects exactly one `block_start` and is forced to
produce for at least one hour is false: in the feasible solution `Vσ`
of `V`, the valid combination (1, 2) (rate 1/60 > 0) has required slot
count 18 > 2 slots, so no `block_start` offsets exist, the selection sum
is 0 ≠ 1, and the product runs zero hours on line 2. -/
theorem C9_counterexample :
    Feasible V Vσ ∧ (1, 2) ∈ validCombos V ∧
    ((List.range (numStarts V 1 2)).map fun s =>
      Vσ.block_start 1 2 s).sum ≠ 1 ∧
    ∀ t ∈ V.slots, Vσ.production_time 1 2 t = 0 := by
  refine ⟨V_feasible, ?_, ?_, ?_⟩
  · norm_num [V_valid]
  · rw [V_ns_12]
    norm_num
  · norm_num [V_slots, Vσ, List.forall_mem_cons]

/-- C9, amended: the forcing holds exactly for the valid combinations
whose required slot count fits the horizon: if
`requiredSlots ≤ slots.length`, every feasible solution selects exactly
one `block_start` for the combination, and some slot carries
`production = 1` and `production_time ≥ 1`; combinations whose required
count exceeds the horizon receive no block-start constraints at all. -/
theorem C9_block_start_amended (I : Inst) (σ : Sol) (hF : Feasible I σ) :
    ∀ pl ∈ validCombos I, requiredSlots I pl.1 pl.2 ≤ I.slots.length →
      (((List.range (numStarts I pl.1 pl.2)).map fun s =>
          σ.block_start pl.1 pl.2 s).sum = 1) ∧
      ∃ t ∈ I.slots, σ.production pl.1 pl.2 t = 1 ∧
        1 ≤ σ.production_time pl.1 pl.2 t := by
  intro pl hmem hle
  exact blockOK_forces hF hmem (by unfold numStarts; omega)

theorem C9_witness :
    (((List.range (numStarts V 1 1)).map fun s =>
        Vσ.block_start 1 1 s).sum = 1) ∧
    ∃ t ∈ V.slots, Vσ.production 1 1 t = 1 ∧ 1 ≤ Vσ.production_time 1 1 t :=
  C9_block_start_amended V Vσ V_feasible (1, 1) (by norm_num [V_valid])
    (by norm_num [V_req_11, V_slots])

/-- C10: in every feasible solution, for every (line, slot) the sum of
the pairwise changeover indicators is at most 1: the binary
`changeover_count[l,t]` is pinned equal to that sum, so each line
performs at most one changeover per slot. -/
theorem C10_changeover_sum_le_one (I : Inst) (σ : Sol) (hF : Feasible I σ) :
    ∀ l ∈ I.lines, ∀ t ∈ I.slots, pairChangeoverSum I σ l t ≤ 1 := by
  intro l hl t ht
  obtain ⟨hvb, -, hcc, -⟩ := hF
  have h1 := (hcc l hl t ht).1
  have hbin := (hvb.2.1 l hl t ht).2.2.1
  rcases hbin with h0 | h1c
  · rw [h0] at h1
    linarith
  · rw [h1c] at h1
    linarith

theorem C10_witness : pairChangeoverSum V Vσ 1 0 ≤ 1 :=
  C10_changeover_sum_le_one V Vσ V_feasible 1 (by norm_num [V_lines]) 0
    (by norm_num [V_slots])
